import Mathlib

/-!
Verification of the document-conversion orchestrator in `src/app.py`
(a Streamlit application wrapping the MarkItDown converter).

The embedding models:
* `os.path.splitext` (used at lines 19 and 30 of `app.py`);
* `get_converted_filename` (lines 14-20);
* Python `str.replace` specialized to the call at line 123
  (replacing every occurrence of ".md" with ".txt", left to right,
  non-overlapping);
* `process_file` (lines 22-69), with the filesystem as a list of existing
  paths, and the staging write and the external converter as parameters
  that either succeed or raise;
* the per-file loop over `uploaded_files` (lines 91-134), including the
  two download buttons (lines 112-125).

An execution of `process_file` that raises an uncaught exception is an
`Except.error` carrying the propagated exception text, the filesystem left
behind and the list of converter invocations made; a normal return is an
`Except.ok`.  Note that in `app.py` the staging write (lines 32-34) happens
before the `try` block (line 39), so an exception raised while staging
propagates out of `process_file`, while the `finally` block (lines 64-67)
covers only the conversion step.
-/

namespace App

/-- Index of the last occurrence of `c` in `l`, if any. -/
def lastIdxOf? (c : Char) (l : List Char) : Option Nat :=
  if c ∈ l then some (l.length - 1 - l.reverse.indexOf c) else none

/-- Model of `os.path.splitext` (posixpath): split at the last dot of the
basename, unless every character of the basename before that dot is itself
a dot (then no split).  `sepBound` is the index right after the last slash
(0 when there is none). -/
def splitext (p : String) : String × String :=
  let l := p.toList
  match lastIdxOf? '.' l with
  | none => (p, "")
  | some dotIdx =>
    let sepBound : Nat :=
      match lastIdxOf? '/' l with
      | none => 0
      | some sepIdx => sepIdx + 1
    if sepBound ≤ dotIdx ∧
        ¬ ((l.drop sepBound).take (dotIdx - sepBound)).all (· = '.') then
      (String.mk (l.take dotIdx), String.mk (l.drop dotIdx))
    else (p, "")

/-- `get_converted_filename` from `app.py` lines 14-20:
`name, _ = os.path.splitext(original_filename)` followed by
returning the stem with `_converted.md` appended. -/
def get_converted_filename (original_filename : String) : String :=
  (splitext original_filename).1 ++ "_converted.md"

/-- Model of the Python string method `replace` with arguments `".md"` and
`".txt"`, on the character list: scan left to right, replacing each
non-overlapping occurrence of `.md` by `.txt` (line 123 of `app.py`). -/
def replaceMdTxtList : List Char → List Char
  | '.' :: 'm' :: 'd' :: rest => '.' :: 't' :: 'x' :: 't' :: replaceMdTxtList rest
  | c :: rest => c :: replaceMdTxtList rest
  | [] => []

/-- String-level wrapper for `replaceMdTxtList`: the computation of the
text-variant download name at line 123 of `app.py`. -/
def replaceMdTxt (s : String) : String :=
  String.mk (replaceMdTxtList s.toList)

/-- `true` when the character list contains no occurrence of `.md`. -/
def noMdOcc : List Char → Bool
  | '.' :: 'm' :: 'd' :: _ => false
  | _ :: rest => noMdOcc rest
  | [] => true

/-- The object returned by `MarkItDown.convert`: only its `text_content`
attribute is consulted by `app.py` (line 51), and that attribute may be a
string or `None`. -/
structure ConvResult where
  text_content : Option String
deriving DecidableEq

/-- Behaviour of one invocation of the external converter on the staged
file: it either raises an exception (with some detail text) or returns a
result object, which may itself be `None`. -/
inductive ConvOutcome where
  | raises (e : String)
  | returns (result : Option ConvResult)
deriving DecidableEq

/-- A normal return of `process_file`: the two returned components
(line 69 of `app.py`), the filesystem state after the `finally` block, and
the list of paths passed to `md.convert` during the call. -/
structure ProcOut where
  text_content : Option String
  error_message : Option String
  fs : List String
  convCalls : List String
deriving DecidableEq

/-- The user-facing per-file error message built at line 60 of `app.py`:
it interpolates only the uploaded file name, not the exception. -/
def errMsg (name : String) : String :=
  "⚠️ Could not read " ++ name ++ ". Please check the format."

/-- Lines 50-55 of `app.py`: `if result and result.text_content:` take the
text content, `else` fall back to the empty string.  A `None` result, a
`None` attribute and an empty string are all falsy in Python. -/
def extractText (result : Option ConvResult) : String :=
  match result with
  | some r =>
    match r.text_content with
    | some s => if s = "" then "" else s
    | none => ""
  | none => ""

/-- Lines 64-67 of `app.py`: `if os.path.exists(tmp_file_path):
os.remove(tmp_file_path)`. -/
def cleanup (tmpPath : String) (fs : List String) : List String :=
  if tmpPath ∈ fs then fs.erase tmpPath else fs

/-- `process_file` from `app.py` lines 22-69.  `tmpPath` is the fresh name
produced by `tempfile.NamedTemporaryFile` (which creates the file on
disk); `stagingFails` tells whether the write of the uploaded bytes at
line 33 raises; `conv` is the behaviour of `md.convert` at line 48.  A
staging failure happens before the `try` block, so it propagates
(`Except.error`) and skips conversion and cleanup; inside the `try`, a
converter exception is caught at line 57 and turned into `errMsg`, and the
`finally` block removes the temporary file. -/
def process_file (name tmpPath : String) (fs0 : List String)
    (stagingFails : Bool) (conv : ConvOutcome) :
    Except (String × List String × List String) ProcOut :=
  let fs1 := tmpPath :: fs0
  if stagingFails then
    .error ("staging I/O error", fs1, [])
  else
    match conv with
    | .raises _e =>
      .ok { text_content := none, error_message := some (errMsg name),
            fs := cleanup tmpPath fs1, convCalls := [tmpPath] }
    | .returns result =>
      .ok { text_content := some (extractText result), error_message := none,
            fs := cleanup tmpPath fs1, convCalls := [tmpPath] }

/-- Environment of one file in an uploaded batch: its name, the fresh
temporary path allocated for it, whether its staging write raises, and how
the converter behaves on it. -/
structure FileEnv where
  name : String
  tmpPath : String
  stagingFails : Bool
  conv : ConvOutcome
deriving DecidableEq

/-- The pair `(content, error)` that the loop body at line 96 of `app.py`
receives for a file whose staging succeeded. -/
def fileResult (f : FileEnv) : Option String × Option String :=
  match f.conv with
  | .raises _ => (none, some (errMsg f.name))
  | .returns r => (some (extractText r), none)

/-- The loop `for uploaded_file in uploaded_files:` at lines 91-96 of
`app.py`: files are processed one at a time in upload order, threading the
filesystem; an uncaught exception aborts the script (propagated as
`Except.error`).  Returns the per-file `(content, error)` pairs, the final
filesystem and the concatenated converter-invocation trace. -/
def processBatch : List FileEnv → List String →
    Except (String × List String × List String)
      (List (Option String × Option String) × List String × List String)
  | [], fs => .ok ([], fs, [])
  | f :: rest, fs =>
    match process_file f.name f.tmpPath fs f.stagingFails f.conv with
    | .error e => .error e
    | .ok out =>
      match processBatch rest out.fs with
      | .error e => .error e
      | .ok (results, fsEnd, calls) =>
        .ok ((out.text_content, out.error_message) :: results, fsEnd,
             out.convCalls ++ calls)

/-- A per-file result pair that carries converted text and no error. -/
def isSuccessResult (r : Option String × Option String) : Bool :=
  r.1.isSome && r.2.isNone

/-- One download button as rendered at lines 112-125 of `app.py`. -/
structure DownloadButton where
  label : String
  data : List UInt8
  file_name : String
  mime : String
deriving DecidableEq

/-- Line 110 of `app.py`: `file_data = content.encode("utf-8")`. -/
def file_data (content : String) : List UInt8 :=
  content.toUTF8.toList

/-- The Markdown download button (lines 113-118 of `app.py`). -/
def mdDownloadButton (name content : String) : DownloadButton :=
  { label := "⬇️ Download as Markdown (.md)"
    data := file_data content
    file_name := get_converted_filename name
    mime := "text/markdown" }

/-- The text download button (lines 120-125 of `app.py`); its file name is
the Markdown name with every occurrence of `.md` replaced by `.txt`. -/
def txtDownloadButton (name content : String) : DownloadButton :=
  { label := "⬇️ Download as Text (.txt)"
    data := file_data content
    file_name := replaceMdTxt (get_converted_filename name)
    mime := "text/plain" }

/-- Modelled from the spec: `format_size` (spec sections 4.2 and 8) is not
present in `src/app.py`; the spec describes byte/KB/MB/GB unit scaling
with two decimal places.  The scaled value is computed in hundredths to
stay in exact arithmetic. -/
def format_size (size : Nat) : String :=
  let i : Nat :=
    if size < 1024 then 0
    else if size < 1024 * 1024 then 1
    else if size < 1024 * 1024 * 1024 then 2
    else 3
  let hundredths := size * 100 / 1024 ^ i
  let unit := ["B", "KB", "MB", "GB"].getD i "B"
  toString (hundredths / 100) ++ "." ++
    (if hundredths % 100 < 10 then "0" else "") ++
    toString (hundredths % 100) ++ " " ++ unit

/-- Modelled from the spec: the percentage-reduction computation of the
size report (spec sections 4.2 and 8) is not present in `src/app.py`; the
spec requires it to guard against division by zero and return 0 when the
original size is 0. -/
def percentage_reduction (original converted : Nat) : ℚ :=
  if original = 0 then 0
  else ((original : ℚ) - (converted : ℚ)) / (original : ℚ) * 100

/-! ## Helper lemmas -/

theorem cleanup_cons (tmpPath : String) (fs : List String) :
    cleanup tmpPath (tmpPath :: fs) = fs := by
  simp [cleanup]

theorem process_file_ok (name tmpPath : String) (fs0 : List String)
    (conv : ConvOutcome) :
    process_file name tmpPath fs0 false conv =
      .ok { text_content := match conv with
              | .raises _ => none
              | .returns r => some (extractText r),
            error_message := match conv with
              | .raises _ => some (errMsg name)
              | .returns _ => none,
            fs := fs0, convCalls := [tmpPath] } := by
  cases conv <;> simp [process_file, cleanup_cons]

theorem replaceMdTxtList_append_conv (s : List Char) (h : noMdOcc s = true) :
    replaceMdTxtList (s ++ "_converted.md".toList) =
      s ++ "_converted.txt".toList := by
  induction s using replaceMdTxtList.induct with
  | case1 rest ih => simp [noMdOcc] at h
  | case2 c rest hne ih =>
    have h2 : noMdOcc rest = true := by
      rw [noMdOcc.eq_2 c rest hne] at h; exact h
    have hside : ∀ (r1 : List Char), c = '.' →
        rest ++ "_converted.md".toList = 'm' :: 'd' :: r1 → False := by
      intro r1 hc hr
      match rest, hr with
      | [], hr =>
        rw [List.nil_append] at hr
        have hx : "_converted.md".toList = '_' :: "converted.md".toList := rfl
        rw [hx] at hr
        injection hr with h1 _
        exact absurd h1 (by decide)
      | [a], hr =>
        rw [List.cons_append, List.nil_append] at hr
        injection hr with h1 hr2
        have hx : "_converted.md".toList = '_' :: "converted.md".toList := rfl
        rw [hx] at hr2
        injection hr2 with h2x _
        exact absurd h2x (by decide)
      | a :: b :: t, hr =>
        rw [List.cons_append, List.cons_append] at hr
        injection hr with h1 hr2
        injection hr2 with h2x hr3
        exact hne t hc (by rw [h1, h2x])
    rw [List.cons_append, replaceMdTxtList.eq_2 c _ hside, ih h2,
        List.cons_append]
  | case3 => rfl

theorem replaceMdTxt_stem (stem : String) (h : noMdOcc stem.toList = true) :
    replaceMdTxt (stem ++ "_converted.md") = stem ++ "_converted.txt" := by
  unfold replaceMdTxt
  have hl : (stem ++ "_converted.md").toList =
      stem.toList ++ "_converted.md".toList := by
    simp [String.toList, String.data_append]
  rw [hl, replaceMdTxtList_append_conv stem.toList h]
  have hr : (stem ++ "_converted.txt").toList =
      stem.toList ++ "_converted.txt".toList := by
    simp [String.toList, String.data_append]
  rw [← hr]
  rfl

theorem processBatch_ok (files : List FileEnv) (fs0 : List String)
    (h : ∀ f ∈ files, f.stagingFails = false) :
    processBatch files fs0 =
      .ok (files.map fileResult, fs0, files.map (·.tmpPath)) := by
  induction files generalizing fs0 with
  | nil => rfl
  | cons f rest ih =>
    have hf : f.stagingFails = false := h f (List.mem_cons_self f rest)
    have hr : ∀ g ∈ rest, g.stagingFails = false :=
      fun g hg => h g (List.mem_cons_of_mem f hg)
    cases hc : f.conv with
    | raises e =>
      simp [processBatch, process_file, hf, hc, cleanup_cons, ih fs0 hr,
            fileResult]
    | returns r =>
      simp [processBatch, process_file, hf, hc, cleanup_cons, ih fs0 hr,
            fileResult]

/-! ## Claim theorems -/

/-- C1: whenever `process_file` returns (both on the success path and on
the caught-conversion-exception path), the temporary staged file allocated
for the upload no longer exists on disk, given that the allocator produced
a fresh path. -/
theorem C1_temp_file_removed_on_return (name tmpPath : String)
    (fs0 : List String) (stagingFails : Bool) (conv : ConvOutcome)
    (out : ProcOut) (hfresh : tmpPath ∉ fs0)
    (hret : process_file name tmpPath fs0 stagingFails conv = .ok out) :
    tmpPath ∉ out.fs := by
  cases stagingFails with
  | true => simp [process_file] at hret
  | false =>
    rw [process_file_ok] at hret
    injection hret with hout
    subst hout
    exact hfresh

theorem C1_witness :
    "/tmp/tmpa1.docx" ∉ ([] : List String) ∧
    "/tmp/tmpa1.docx" ∉
      (ProcOut.fs ⟨some "Text", none, [], ["/tmp/tmpa1.docx"]⟩) :=
  ⟨by decide,
   C1_temp_file_removed_on_return "a.docx" "/tmp/tmpa1.docx" [] false
     (.returns (some ⟨some "Text"⟩)) ⟨some "Text", none, [], ["/tmp/tmpa1.docx"]⟩
     (by decide) rfl⟩

/-- C2: on every execution of `process_file` that returns, exactly one of
the two returned components is non-`None`: either converted text and no
error, or an error and no text — never both, never neither. -/
theorem C2_exactly_one_of_text_error (name tmpPath : String)
    (fs0 : List String) (stagingFails : Bool) (conv : ConvOutcome)
    (out : ProcOut)
    (hret : process_file name tmpPath fs0 stagingFails conv = .ok out) :
    (out.text_content.isSome = true ∧ out.error_message = none) ∨
    (out.text_content = none ∧ out.error_message.isSome = true) := by
  cases stagingFails with
  | true => simp [process_file] at hret
  | false =>
    rw [process_file_ok] at hret
    injection hret with hout
    subst hout
    cases conv with
    | raises e => exact Or.inr ⟨rfl, rfl⟩
    | returns r => exact Or.inl ⟨rfl, rfl⟩

theorem C2_witness :
    ((ProcOut.text_content ⟨some "", none, [], ["/tmp/tmpb2.pdf"]⟩).isSome = true ∧
      ProcOut.error_message ⟨some "", none, [], ["/tmp/tmpb2.pdf"]⟩ = none) ∨
    (ProcOut.text_content ⟨some "", none, [], ["/tmp/tmpb2.pdf"]⟩ = none ∧
      (ProcOut.error_message ⟨some "", none, [], ["/tmp/tmpb2.pdf"]⟩).isSome = true) :=
  C2_exactly_one_of_text_error "b.pdf" "/tmp/tmpb2.pdf" [] false
    (.returns none) ⟨some "", none, [], ["/tmp/tmpb2.pdf"]⟩ rfl

/-- C3 counterexample: an exception raised during staging (the write at
line 33 of `app.py`, before the `try` block) is not caught inside
`process_file`: the call propagates the exception (`Except.error`) instead
of returning the per-file error message, and the staged file is left on
disk. -/
theorem C3_counterexample_staging_exception_propagates :
    process_file "doc.docx" "/tmp/tmpc3.docx" [] true (.returns none) =
      .error ("staging I/O error", ["/tmp/tmpc3.docx"], []) := rfl

/-- C3 (amended): any exception raised during conversion is caught inside
`process_file` and turned into the single user-facing per-file error
message; exceptions raised during staging are outside the `try` block and
propagate out of `process_file`. -/
theorem C3_conversion_exceptions_caught (name tmpPath : String)
    (fs0 : List String) (e : String) :
    process_file name tmpPath fs0 false (.raises e) =
      .ok { text_content := none, error_message := some (errMsg name),
            fs := fs0, convCalls := [tmpPath] } :=
  process_file_ok name tmpPath fs0 (.raises e)

/-- C4 counterexample: for the uploaded name `a.mdx.docx` the stem is
`a.mdx`, so the claim says the text-variant download is named
`a.mdx_converted.txt`; the code names it `a.txtx_converted.txt`, because
line 123 of `app.py` replaces every occurrence of `.md`, including the one
inside the stem. -/
theorem C4_counterexample_txt_name :
    (splitext "a.mdx.docx").1 = "a.mdx" ∧
    (txtDownloadButton "a.mdx.docx" "content").file_name =
      "a.txtx_converted.txt" ∧
    (txtDownloadButton "a.mdx.docx" "content").file_name ≠
      "a.mdx_converted.txt" := by
  refine ⟨by decide, by decide, by decide⟩

/-- C4 (amended): the Markdown download is always named
`{stem}_converted.md` with MIME type `text/markdown`; the text-variant
download has MIME type `text/plain` and is named by replacing every
occurrence of `.md` in the Markdown name with `.txt`, which equals
`{stem}_converted.txt` whenever the stem itself contains no occurrence of
`.md`. -/
theorem C4_download_names_and_mimes (name content : String) :
    (mdDownloadButton name content).file_name =
      (splitext name).1 ++ "_converted.md" ∧
    (mdDownloadButton name content).mime = "text/markdown" ∧
    (txtDownloadButton name content).mime = "text/plain" ∧
    (txtDownloadButton name content).file_name =
      replaceMdTxt ((splitext name).1 ++ "_converted.md") ∧
    (noMdOcc (splitext name).1.toList = true →
      (txtDownloadButton name content).file_name =
        (splitext name).1 ++ "_converted.txt") :=
  ⟨rfl, rfl, rfl, rfl, fun h => replaceMdTxt_stem (splitext name).1 h⟩

theorem C4_download_names_and_mimes_witness :
    (mdDownloadButton "Report.docx" "hello").file_name =
      "Report_converted.md" ∧
    (txtDownloadButton "Report.docx" "hello").file_name =
      "Report_converted.txt" := by
  have h := C4_download_names_and_mimes "Report.docx" "hello"
  exact ⟨h.1.trans (by decide), (h.2.2.2.2 (by decide)).trans (by decide)⟩

/-- C5: for every successful conversion, the Markdown and text download
payloads are the identical byte sequence, namely the UTF-8 encoding of the
converted text (line 110 of `app.py` builds one `file_data` used by both
buttons). -/
theorem C5_payloads_identical (name content : String) :
    (mdDownloadButton name content).data =
      (txtDownloadButton name content).data ∧
    (mdDownloadButton name content).data = content.toUTF8.toList :=
  ⟨rfl, rfl⟩

/-- C6: in a batch whose staging writes succeed and in which exactly one
file fails to convert, every other file still succeeds (N-1 successes out
of N results), and the converter-invocation trace contains exactly one
invocation per file, in upload order (no retry). -/
theorem C6_batch_isolation (a b : List FileEnv) (bad : FileEnv)
    (fs0 : List String)
    (ha : ∀ f ∈ a, f.stagingFails = false ∧ ∃ r, f.conv = .returns r)
    (hb : ∀ f ∈ b, f.stagingFails = false ∧ ∃ r, f.conv = .returns r)
    (hbad : bad.stagingFails = false ∧ ∃ e, bad.conv = .raises e) :
    ∃ results calls,
      processBatch (a ++ bad :: b) fs0 = .ok (results, fs0, calls) ∧
      results.length = (a ++ bad :: b).length ∧
      (results.filter isSuccessResult).length = (a ++ bad :: b).length - 1 ∧
      calls = (a ++ bad :: b).map (·.tmpPath) := by
  have hstage : ∀ f ∈ a ++ bad :: b, f.stagingFails = false := by
    intro f hf
    rcases List.mem_append.1 hf with hfa | hfb
    · exact (ha f hfa).1
    · rcases List.mem_cons.1 hfb with rfl | hfb2
      · exact hbad.1
      · exact (hb f hfb2).1
  refine ⟨(a ++ bad :: b).map fileResult, (a ++ bad :: b).map (·.tmpPath),
    processBatch_ok _ fs0 hstage, by simp, ?_, rfl⟩
  have hfa : ∀ f ∈ a, isSuccessResult (fileResult f) = true := by
    intro f hf
    obtain ⟨_, r, hr⟩ := ha f hf
    simp [fileResult, hr, isSuccessResult]
  have hfb : ∀ f ∈ b, isSuccessResult (fileResult f) = true := by
    intro f hf
    obtain ⟨_, r, hr⟩ := hb f hf
    simp [fileResult, hr, isSuccessResult]
  obtain ⟨_, e, he⟩ := hbad
  have hbadres : isSuccessResult (fileResult bad) = false := by
    simp [fileResult, he, isSuccessResult]
  rw [List.map_append, List.map_cons, List.filter_append, List.filter_cons]
  rw [hbadres]
  have h1 : (a.map fileResult).filter isSuccessResult = a.map fileResult := by
    rw [List.filter_eq_self]
    intro x hx
    obtain ⟨f, hf, rfl⟩ := List.mem_map.1 hx
    exact hfa f hf
  have h2 : (b.map fileResult).filter isSuccessResult = b.map fileResult := by
    rw [List.filter_eq_self]
    intro x hx
    obtain ⟨f, hf, rfl⟩ := List.mem_map.1 hx
    exact hfb f hf
  simp [h1, h2]

theorem C6_batch_isolation_witness :
    ∃ results calls,
      processBatch
        [⟨"a.docx", "/tmp/t1", false, .returns (some ⟨some "A"⟩)⟩,
         ⟨"b.pdf", "/tmp/t2", false, .raises "corrupt"⟩,
         ⟨"c.docx", "/tmp/t3", false, .returns (some ⟨some "C"⟩)⟩] [] =
        .ok (results, [], calls) ∧
      results.length = 3 ∧
      (results.filter isSuccessResult).length = 3 - 1 ∧
      calls = ["/tmp/t1", "/tmp/t2", "/tmp/t3"] := by
  have h := C6_batch_isolation
    [⟨"a.docx", "/tmp/t1", false, .returns (some ⟨some "A"⟩)⟩]
    [⟨"c.docx", "/tmp/t3", false, .returns (some ⟨some "C"⟩)⟩]
    ⟨"b.pdf", "/tmp/t2", false, .raises "corrupt"⟩ []
    (by intro f hf
        rw [List.mem_singleton] at hf
        subst hf
        exact ⟨rfl, some ⟨some "A"⟩, rfl⟩)
    (by intro f hf
        rw [List.mem_singleton] at hf
        subst hf
        exact ⟨rfl, some ⟨some "C"⟩, rfl⟩)
    ⟨rfl, "corrupt", rfl⟩
  exact h

/-- C7: when the converter returns without raising but yields no text
content (a missing result object, a missing attribute, or an empty
string), `process_file` returns the empty string as the converted text and
no error. -/
theorem C7_empty_result_gives_empty_string (name tmpPath : String)
    (fs0 : List String) (result : Option ConvResult)
    (h : result = none ∨ ∃ r, result = some r ∧
      (r.text_content = none ∨ r.text_content = some "")) :
    process_file name tmpPath fs0 false (.returns result) =
      .ok { text_content := some "", error_message := none,
            fs := fs0, convCalls := [tmpPath] } := by
  have hx : extractText result = "" := by
    rcases h with rfl | ⟨r, rfl, hr | hr⟩
    · rfl
    · simp [extractText, hr]
    · simp [extractText, hr]
  simp [process_file_ok, hx]

theorem C7_empty_result_gives_empty_string_witness :
    process_file "a.docx" "/tmp/tmpc7.docx" [] false (.returns none) =
      .ok { text_content := some "", error_message := none,
            fs := [], convCalls := ["/tmp/tmpc7.docx"] } :=
  C7_empty_result_gives_empty_string "a.docx" "/tmp/tmpc7.docx" []
    none (Or.inl rfl)

/-- C8: `format_size` maps 1024 bytes to `1.00 KB`, 0 bytes to `0.00 B`
and 1048576 bytes to `1.00 MB`. -/
theorem C8_format_size_values :
    format_size 1024 = "1.00 KB" ∧
    format_size 0 = "0.00 B" ∧
    format_size 1048576 = "1.00 MB" := by
  refine ⟨by decide, by decide, by decide⟩

/-- C9: the percentage-reduction computation applied to an original size
of 0 bytes returns 0 (the division is guarded and never performed with a
zero denominator). -/
theorem C9_pct_reduction_zero (converted : Nat) :
    percentage_reduction 0 converted = 0 := by
  simp [percentage_reduction]

/-- C10: the user-facing error message for a failed file depends only on
the uploaded file name, never on the underlying exception: two failing
runs with different exception details return identical results, and the
error component is exactly `errMsg name`. -/
theorem C10_error_message_independent_of_exception (name tmpPath : String)
    (fs0 : List String) (e1 e2 : String) :
    process_file name tmpPath fs0 false (.raises e1) =
      process_file name tmpPath fs0 false (.raises e2) ∧
    process_file name tmpPath fs0 false (.raises e1) =
      .ok { text_content := none, error_message := some (errMsg name),
            fs := fs0, convCalls := [tmpPath] } :=
  ⟨rfl, process_file_ok name tmpPath fs0 (.raises e1)⟩

end App
